import Mathlib

/-!
Verification of the schema-model, unique-criteria and migration-command
behaviour of the `prisma-engines` sources (datamodel `dml` model,
parser-database unique criteria walker, and the InferMigrationSteps
command).  Rust functions are embedded shallowly: machine-level strings
become Lean `String`s, Rust `Option`/`Vec` become `Option`/`List`, and a
Rust panic (an `unwrap`/`expect` on a missing value) is embedded as the
value `none` of an `Option`-returning Lean function.
-/

namespace Dml

/-- Embeds Rust `str::starts_with`: the second string is a character-wise
prefix of the first. -/
def rustStartsWith (s pre : String) : Bool :=
  pre.data.isPrefixOf s.data

/-- Embeds Rust `str::to_lowercase` (ASCII-relevant part): lowercase every
character. -/
def rustToLowercase (s : String) : String :=
  String.mk (s.data.map Char.toLower)

/-- Modelled from the spec: the scalar types of the schema language.  The
file defining `ScalarType` is not among the sources; §3 calls it the field's
"type descriptor" and §4.1 distinguishes integer and date/time types. -/
inductive ScalarType
  | int
  | bigInt
  | float
  | boolean
  | string
  | dateTime
  | json
  | bytes
  | decimal
  deriving DecidableEq, Repr

/-- Modelled from the spec: the kind of a default value — a literal value or
a generator expression (§4.1: "a generator-expression default (not a
literal)").  The defining file `default_value.rs` is not among the
sources. -/
inductive DefaultKind
  | single
  | expression
  deriving DecidableEq, Repr

/-- Modelled from the spec: the "optional default-value descriptor" carried
by a field (§3); only its kind is consulted by the sources. -/
structure DefaultValue where
  kind : DefaultKind
  deriving DecidableEq, Repr

/-- Modelled from the spec: a field's type descriptor (§3).  The sources
match on `FieldType::Scalar(ScalarType::Int, _, _)` and call
`is_datetime`, so the scalar payload is kept and every other shape is
collapsed into one constructor. -/
inductive FieldType
  | scalar (tpe : ScalarType)
  | other (tag : String)
  deriving DecidableEq, Repr

/-- Embeds `FieldType::is_datetime` (true exactly on the scalar date/time
type, per §4.1's "are of a date/time type"). -/
def FieldType.is_datetime : FieldType → Bool
  | FieldType.scalar ScalarType.dateTime => true
  | _ => false

/-- Modelled from the spec: a scalar field (§3: name, type descriptor,
optional database-facing name, optional default-value descriptor). -/
structure ScalarField where
  name : String
  field_type : FieldType
  database_name : Option String
  default_value : Option DefaultValue
  deriving DecidableEq, Repr

/-- Modelled from the spec: a relation field (§3); only its name is
consulted by the sources. -/
structure RelationField where
  name : String
  deriving DecidableEq, Repr

/-- Modelled from the spec: a composite-typed field (§3); only its name is
consulted by the sources. -/
structure CompositeField where
  name : String
  deriving DecidableEq, Repr

/-- Modelled from the spec: the tagged field variant
{Scalar, Relation, Composite} of §3. -/
inductive Field
  | scalarField (sf : ScalarField)
  | relationField (rf : RelationField)
  | compositeField (cf : CompositeField)
  deriving DecidableEq, Repr

/-- The name of a field, whichever variant it is (embeds `Field::name`). -/
def Field.name : Field → String
  | Field.scalarField sf => sf.name
  | Field.relationField rf => rf.name
  | Field.compositeField cf => cf.name

/-- Embeds `Field::as_scalar_field`. -/
def Field.as_scalar_field : Field → Option ScalarField
  | Field.scalarField sf => some sf
  | _ => none

/-- Embeds `Field::as_relation_field`. -/
def Field.as_relation_field : Field → Option RelationField
  | Field.relationField rf => some rf
  | _ => none

/-- Embeds `IndexAlgorithm` from `model.rs`. -/
inductive IndexAlgorithm
  | bTree
  | hash
  deriving DecidableEq, Repr

/-- Embeds `IndexType` from `model.rs`. -/
inductive IndexType
  | unique
  | normal
  | fulltext
  deriving DecidableEq, Repr

/-- Embeds `SortOrder` from `model.rs`. -/
inductive SortOrder
  | asc
  | desc
  deriving DecidableEq, Repr

/-- Embeds `IndexFieldLocation` from `model.rs`: directly in the current
model, or inside a composite type embedded in it. -/
inductive IndexFieldLocation
  | inCurrentModel (field_name : String)
  | inCompositeType (composite_type_name : String) (field_name : String) (full_path : String)
  deriving DecidableEq, Repr

/-- Embeds `IndexField` from `model.rs`. -/
structure IndexField where
  location : IndexFieldLocation
  sort_order : Option SortOrder
  length : Option Nat
  deriving DecidableEq, Repr

/-- Embeds `IndexDefinition` from `model.rs`. -/
structure IndexDefinition where
  name : Option String
  db_name : Option String
  fields : List IndexField
  tpe : IndexType
  algorithm : Option IndexAlgorithm
  defined_on_field : Bool
  deriving DecidableEq, Repr

/-- Embeds `IndexDefinition::is_unique`. -/
def IndexDefinition.is_unique (i : IndexDefinition) : Bool :=
  match i.tpe with
  | IndexType.unique => true
  | _ => false

/-- Embeds `IndexDefinition::is_fulltext`. -/
def IndexDefinition.is_fulltext (i : IndexDefinition) : Bool :=
  match i.tpe with
  | IndexType.fulltext => true
  | _ => false

/-- Embeds `PrimaryKeyField` from `model.rs`. -/
structure PrimaryKeyField where
  name : String
  sort_order : Option SortOrder
  length : Option Nat
  deriving DecidableEq, Repr

/-- Embeds `PrimaryKeyDefinition` from `model.rs`. -/
structure PrimaryKeyDefinition where
  name : Option String
  db_name : Option String
  fields : List PrimaryKeyField
  defined_on_field : Bool
  deriving DecidableEq, Repr

/-- Embeds `Model` from `model.rs`. -/
structure Model where
  name : String
  fields : List Field
  documentation : Option String
  database_name : Option String
  indices : List IndexDefinition
  primary_key : Option PrimaryKeyDefinition
  is_generated : Bool
  is_commented_out : Bool
  is_ignored : Bool
  deriving DecidableEq, Repr

/-- Embeds the body of a Rust `Iterator::any` whose closure may panic
(an `unwrap` on the element): visiting an element either panics (`none`),
finds a hit (`some true`, stopping the scan), or moves on.  `none` of the
overall result embeds the panic. -/
def anyVisit {α : Type} : List α → (α → Option Bool) → Option Bool
  | [], _ => some false
  | x :: xs, p =>
    match p x with
    | none => none
    | some true => some true
    | some false => anyVisit xs p

/-- Embeds `Model::scalar_fields` (the list it iterates). -/
def Model.scalar_fields (m : Model) : List ScalarField :=
  m.fields.filterMap Field.as_scalar_field

/-- Embeds `Model::relation_fields` (the list it iterates). -/
def Model.relation_fields (m : Model) : List RelationField :=
  m.fields.filterMap Field.as_relation_field

/-- Embeds `Model::find_field`. -/
def Model.find_field (m : Model) (name : String) : Option Field :=
  m.fields.find? (fun f => f.name == name)

/-- Embeds `Model::find_scalar_field`. -/
def Model.find_scalar_field (m : Model) (name : String) : Option ScalarField :=
  m.scalar_fields.find? (fun f => f.name == name)

/-- Embeds `Model::find_relation_field`. -/
def Model.find_relation_field (m : Model) (name : String) : Option RelationField :=
  m.relation_fields.find? (fun f => f.name == name)

/-- Embeds `Model::has_field`. -/
def Model.has_field (m : Model) (name : String) : Bool :=
  (m.find_field name).isSome

/-- Embeds `Model::find_field_mut`; the `unwrap` panic on a missing name is
embedded as `none`. -/
def Model.find_field_mut (m : Model) (name : String) : Option Field :=
  m.fields.find? (fun f => f.name == name)

/-- Embeds `Model::find_scalar_field_mut`; the `expect` panic on a missing
name is embedded as `none`. -/
def Model.find_scalar_field_mut (m : Model) (name : String) : Option ScalarField :=
  m.scalar_fields.find? (fun rf => rf.name == name)

/-- Embeds `Model::find_relation_field_mut`; the `expect` panic on a
missing name is embedded as `none`. -/
def Model.find_relation_field_mut (m : Model) (name : String) : Option RelationField :=
  m.relation_fields.find? (fun rf => rf.name == name)

/-- Embeds `Model::field_is_primary`: the primary key exists, has exactly
one field, and that field bears the given name.  (The source's
`fields.first().unwrap()` sits behind the short-circuited
`fields.len() == 1`, so it never panics.) -/
def Model.field_is_primary (m : Model) (field_name : String) : Bool :=
  match m.primary_key with
  | some pk =>
    pk.fields.length == 1 &&
      (match pk.fields.head? with
       | some f => f.name == field_name
       | none => false)
  | none => false

/-- Embeds `Model::field_is_primary_and_defined_on_field`. -/
def Model.field_is_primary_and_defined_on_field (m : Model) (field_name : String) : Bool :=
  match m.primary_key with
  | some pk =>
    pk.fields.length == 1 &&
      (match pk.fields.head? with
       | some f => f.name == field_name
       | none => false) &&
      pk.defined_on_field
  | none => false

/-- Embeds the closure body of `Model::field_is_unique`: the `unwrap` of
`i.fields.first()` is `none` on an index with no fields. -/
def uniqueIndexVisit (name : String) (i : IndexDefinition) : Option Bool :=
  match i.fields.head? with
  | none => none
  | some f =>
    let names_match :=
      match f.location with
      | IndexFieldLocation.inCurrentModel field_name => field_name == name
      | IndexFieldLocation.inCompositeType _ _ _ => false
    some (i.is_unique && i.fields.length == 1 && names_match)

/-- Embeds `Model::field_is_unique`. -/
def Model.field_is_unique (m : Model) (name : String) : Option Bool :=
  anyVisit m.indices (uniqueIndexVisit name)

/-- Embeds the closure body of `Model::field_is_unique_and_defined_on_field`. -/
def uniqueOnFieldVisit (name : String) (i : IndexDefinition) : Option Bool :=
  match i.fields.head? with
  | none => none
  | some f =>
    let names_match :=
      match f.location with
      | IndexFieldLocation.inCurrentModel field_name => field_name == name
      | IndexFieldLocation.inCompositeType _ _ _ => false
    some (i.is_unique && i.fields.length == 1 && names_match && i.defined_on_field)

/-- Embeds `Model::field_is_unique_and_defined_on_field`. -/
def Model.field_is_unique_and_defined_on_field (m : Model) (name : String) : Option Bool :=
  anyVisit m.indices (uniqueOnFieldVisit name)

/-- Embeds the closure body of the `is_first_in_index` scan inside
`Model::field_is_indexed`. -/
def firstInIndexVisit (name : String) (index : IndexDefinition) : Option Bool :=
  match index.fields.head? with
  | none => none
  | some f =>
    some
      (match f.location with
       | IndexFieldLocation.inCurrentModel field_name => field_name == name
       | IndexFieldLocation.inCompositeType _ _ _ => false)

/-- Embeds the `is_first_in_primary_key` subexpression of
`Model::field_is_indexed`: `matches!(&self.primary_key, Some(..) if
fields.first().unwrap().name == name)`; the `unwrap` on an empty
primary-key field list is `none`. -/
def pkFirstVisit (m : Model) (name : String) : Option Bool :=
  match m.primary_key with
  | some pk =>
    match pk.fields.head? with
    | some f => some (f.name == name)
    | none => none
  | none => some false

/-- Embeds `Model::field_is_indexed`; each `unwrap` (the field lookup, an
index with no fields, a primary key with no fields) is `none`. -/
def Model.field_is_indexed (m : Model) (name : String) : Option Bool := do
  let field ← m.find_field name
  if m.field_is_primary field.name then
    pure true
  else do
    let unique_b ← m.field_is_unique field.name
    if unique_b then
      pure true
    else do
      let is_first_in_index ← anyVisit m.indices (firstInIndexVisit name)
      let is_first_in_primary_key ← pkFirstVisit m name
      pure (is_first_in_index || is_first_in_primary_key)

/-- Embeds `Model::has_single_id_field`. -/
def Model.has_single_id_field (m : Model) : Bool :=
  match m.primary_key with
  | some pk => pk.fields.length == 1
  | none => false

/-- Embeds the nested `has_field` helper inside
`Model::has_created_at_and_updated_at`: look the name up among the scalar
fields, fall back to the fully lowercased name, and require a date/time
type on the field found. -/
def hasDateTimeFieldNamed (m : Model) (name : String) : Bool :=
  match
    (match m.find_scalar_field name with
     | some f => some f
     | none => m.find_scalar_field (rustToLowercase name)) with
  | some f => f.field_type.is_datetime
  | none => false

/-- Embeds `Model::has_created_at_and_updated_at`. -/
def Model.has_created_at_and_updated_at (m : Model) : Bool :=
  hasDateTimeFieldNamed m "createdAt" && hasDateTimeFieldNamed m "updatedAt"

/-- Embeds `Model::field_is_auto_generated_int_id`; the `unwrap` of the
scalar-field lookup is `none`. -/
def Model.field_is_auto_generated_int_id (m : Model) (name : String) : Option Bool := do
  let field ← m.find_scalar_field name
  let is_autogenerated_id :=
    match field.default_value with
    | some dv =>
      match dv.kind with
      | DefaultKind.expression => m.field_is_primary name
      | DefaultKind.single => false
    | none => false
  let is_an_int :=
    match field.field_type with
    | FieldType.scalar ScalarType.int => true
    | _ => false
  pure (is_autogenerated_id && is_an_int)

/-- Modelled from the spec: a resolved index-field reference (the
`IndexFieldWalker` in `unique_criteria.rs`), pointing either at a scalar
field of the model or at a field of an embedded composite type.  The
walkers module defining it is not among the sources, so only the two
judgements the unique-criteria code consults — whether the resolved field
is optional (nullable) and whether its type is unsupported/opaque — are
kept. -/
structure IndexFieldWalker where
  is_optional : Bool
  is_unsupported : Bool
  deriving DecidableEq, Repr

/-- Embeds `UniqueCriteriaWalker` from `unique_criteria.rs`, with
`fields()` already resolved (the resolution walks lookup tables of the
parser database that are not among the sources). -/
structure UniqueCriteriaWalker where
  fields : List IndexFieldWalker
  deriving DecidableEq, Repr

/-- Embeds `UniqueCriteriaWalker::has_optional_fields`. -/
def UniqueCriteriaWalker.has_optional_fields (w : UniqueCriteriaWalker) : Bool :=
  w.fields.any (fun field => field.is_optional)

/-- Embeds `UniqueCriteriaWalker::has_unsupported_fields`. -/
def UniqueCriteriaWalker.has_unsupported_fields (w : UniqueCriteriaWalker) : Bool :=
  w.fields.any (fun field => field.is_unsupported)

/-- Embeds `UniqueCriteriaWalker::is_strict_criteria`. -/
def UniqueCriteriaWalker.is_strict_criteria (w : UniqueCriteriaWalker) : Bool :=
  !w.has_optional_fields && !w.has_unsupported_fields

end Dml

namespace MigrationCore

/-- Modelled from the spec: one abstract migration step (§3); kept as an
uninterpreted tag, since the command only passes steps through. -/
structure MigrationStep where
  tag : String
  deriving DecidableEq, Repr

/-- Modelled from the spec: a parsed schema AST (external collaborator,
§6); uninterpreted. -/
structure SchemaAst where
  tag : String
  deriving DecidableEq, Repr

/-- Modelled from the spec: a validated schema model snapshot (external
collaborator, §6); uninterpreted. -/
structure Datamodel where
  tag : String
  deriving DecidableEq, Repr

/-- Modelled from the spec: a concrete backend migration plan (§3);
uninterpreted. -/
structure DatabaseMigration where
  tag : String
  deriving DecidableEq, Repr

/-- Embeds `DestructiveChangeDiagnostics` (§3: a warnings/errors report,
not a gate); the individual diagnostics are kept as strings. -/
structure DestructiveChangeDiagnostics where
  warnings : List String
  errors : List String
  deriving DecidableEq, Repr

/-- Embeds `MigrationStepsResultOutput` from
`infer_migration_steps.rs` (the rendered database steps are kept as
strings). -/
structure MigrationStepsResultOutput where
  datamodel : String
  datamodel_steps : List MigrationStep
  database_steps : List String
  errors : List String
  warnings : List String
  general_errors : List String
  deriving DecidableEq, Repr

/-- Embeds `InferMigrationStepsInput` from `infer_migration_steps.rs`. -/
structure InferMigrationStepsInput where
  migration_id : String
  datamodel : String
  assume_to_be_applied : List MigrationStep
  deriving DecidableEq, Repr

/-- Embeds the `IsWatchMigration` impl for `InferMigrationStepsInput`:
`self.migration_id.starts_with("watch")`. -/
def InferMigrationStepsInput.is_watch_migration (i : InferMigrationStepsInput) : Bool :=
  Dml.rustStartsWith i.migration_id "watch"

/-- Modelled from the spec: the external collaborators consulted by
`InferMigrationStepsCommand::execute` (§6 and §2's control flow), as the
results of each call the function makes, in source order.  Fallible calls
(`?` in the source) carry an `Except`; infallible ones carry their plain
value. -/
structure InferEnv where
  assumed_datamodel_ast : Except String SchemaAst
  assumed_datamodel : Except String Datamodel
  next_datamodel : Except String Datamodel
  next_datamodel_ast : Except String SchemaAst
  model_migration_steps : List MigrationStep
  database_migration : Except String DatabaseMigration
  destructive_check : Except String DestructiveChangeDiagnostics
  watch_database_steps : Except String (List String)
  last_non_watch_datamodel_steps : List MigrationStep
  full_database_migration : Except String DatabaseMigration
  full_database_steps : Except String (List String)
  rendered_next_datamodel : String

/-- Embeds `InferMigrationStepsCommand::execute` over the collaborator
results: the same sequence of fallible calls, the watch/non-watch branch
on the input's migration id, and the final output record, whose `errors`
list is the literal empty vector and whose `warnings` are the ones
destructured out of the destructive-change diagnostics (the report's own
`errors` field is discarded by the `errors: _` pattern). -/
def executeInfer (input : InferMigrationStepsInput) (env : InferEnv) :
    Except String MigrationStepsResultOutput := do
  let _assumed_datamodel_ast ← env.assumed_datamodel_ast
  let _assumed_datamodel ← env.assumed_datamodel
  let _next_datamodel ← env.next_datamodel
  let _next_datamodel_ast ← env.next_datamodel_ast
  let model_migration_steps := env.model_migration_steps
  let _database_migration ← env.database_migration
  let diag ← env.destructive_check
  let warnings := diag.warnings
  let returned ←
    if input.is_watch_migration then do
      let database_steps ← env.watch_database_steps
      pure (model_migration_steps, database_steps)
    else do
      let datamodel_steps := env.last_non_watch_datamodel_steps
      let _full_database_migration ← env.full_database_migration
      let database_steps ← env.full_database_steps
      pure (datamodel_steps, database_steps)
  pure
    ⟨env.rendered_next_datamodel, returned.1, returned.2, [], warnings, []⟩

end MigrationCore

namespace Dml

/-- Spec wording (§4.1): the named field is the model's single-field
primary key. -/
def IsSingleFieldPrimaryKey (m : Model) (name : String) : Prop :=
  ∃ pk f, m.primary_key = some pk ∧ pk.fields = [f] ∧ f.name = name

/-- Spec wording (§4.1): the named field is the target of a single-field
unique index of the model. -/
def IsSingleFieldUniqueTarget (m : Model) (name : String) : Prop :=
  ∃ i ∈ m.indices, i.tpe = IndexType.unique ∧
    ∃ f, i.fields = [f] ∧ f.location = IndexFieldLocation.inCurrentModel name

/-- Spec wording (§4.1): same as `IsSingleFieldUniqueTarget`, and the index
originated from a field-level shorthand rather than a model-level block. -/
def IsSingleFieldUniqueTargetOnField (m : Model) (name : String) : Prop :=
  ∃ i ∈ m.indices, i.tpe = IndexType.unique ∧ i.defined_on_field = true ∧
    ∃ f, i.fields = [f] ∧ f.location = IndexFieldLocation.inCurrentModel name

/-- Spec wording (§4.1): the named field is the first field of some index
of the model, that first field being located in the current model. -/
def IsFirstFieldOfSomeModelIndex (m : Model) (name : String) : Prop :=
  ∃ i ∈ m.indices, ∃ f rest, i.fields = f :: rest ∧
    f.location = IndexFieldLocation.inCurrentModel name

/-- Spec wording (§4.1): the named field is the first field of the model's
primary key. -/
def IsFirstPrimaryKeyField (m : Model) (name : String) : Prop :=
  ∃ pk f rest, m.primary_key = some pk ∧ pk.fields = f :: rest ∧ f.name = name

/-- The data-model invariant of §3: an index's field list is never
empty. -/
def HasNonEmptyIndexFields (m : Model) : Prop :=
  ∀ i ∈ m.indices, i.fields ≠ []

/-- The data-model invariant of §3: the primary key's field list, when a
primary key exists, is never empty. -/
def HasNonEmptyPrimaryKeyFields (m : Model) : Prop :=
  ∀ pk, m.primary_key = some pk → pk.fields ≠ []

/-- Spec wording (§4.1, claim C7): a scalar field with the exact name
exists — or, failing that, one with the fully lowercased name — and the
field so found has a date/time type. -/
def SpecDateTimeFieldFound (m : Model) (name : String) : Prop :=
  ∃ f, (m.find_scalar_field name = some f ∨
        (m.find_scalar_field name = none ∧
         m.find_scalar_field (rustToLowercase name) = some f)) ∧
    f.field_type.is_datetime = true

/-- Fixture: the two-column index `@@index([a, b])` of the spec's §8
example. -/
def exIndexAB : IndexDefinition :=
  ⟨none, none,
   [⟨IndexFieldLocation.inCurrentModel "a", none, none⟩,
    ⟨IndexFieldLocation.inCurrentModel "b", none, none⟩],
   IndexType.normal, none, false⟩

/-- Fixture: a model with scalar fields `a`, `b` and the composite index
`@@index([a, b])`. -/
def exModelAB : Model :=
  ⟨"M",
   [Field.scalarField ⟨"a", FieldType.scalar ScalarType.int, none, none⟩,
    Field.scalarField ⟨"b", FieldType.scalar ScalarType.string, none, none⟩],
   none, none, [exIndexAB], none, false, false, false⟩

/-- Fixture: a single-field unique index on `a`, declared with the
field-level `@unique` shorthand. -/
def exUniqueIndexA : IndexDefinition :=
  ⟨none, none, [⟨IndexFieldLocation.inCurrentModel "a", none, none⟩],
   IndexType.unique, none, true⟩

/-- Fixture: a model with scalar field `a` carrying a field-level unique
index. -/
def exModelUnique : Model :=
  ⟨"U",
   [Field.scalarField ⟨"a", FieldType.scalar ScalarType.int, none, none⟩],
   none, none, [exUniqueIndexA], none, false, false, false⟩

/-- Fixture: a model with an auto-generated integer id: scalar `id` of
integer type, generator-expression default, single-field primary key. -/
def exModelId : Model :=
  ⟨"I",
   [Field.scalarField ⟨"id", FieldType.scalar ScalarType.int, none,
      some ⟨DefaultKind.expression⟩⟩],
   none, none, [],
   some ⟨none, none, [⟨"id", none, none⟩], true⟩,
   false, false, false⟩

/-- Fixture: a model with one field of each variant, for the mutating
lookups. -/
def exModelRich : Model :=
  ⟨"R",
   [Field.scalarField ⟨"s", FieldType.scalar ScalarType.int, none, none⟩,
    Field.relationField ⟨"r"⟩,
    Field.compositeField ⟨"c"⟩],
   none, none, [], none, false, false, false⟩

end Dml

namespace MigrationCore

/-- Fixture: an input whose migration id carries the watch prefix. -/
def exInputWatch : InferMigrationStepsInput :=
  ⟨"watch-0001", "model A", []⟩

/-- Fixture: a collaborator environment in which every call succeeds and
the destructive-change checker reports one warning and one error. -/
def exEnv : InferEnv :=
  ⟨Except.ok ⟨"assumed-ast"⟩, Except.ok ⟨"assumed"⟩, Except.ok ⟨"next"⟩,
   Except.ok ⟨"next-ast"⟩, [⟨"CreateModel A"⟩], Except.ok ⟨"db-migration"⟩,
   Except.ok ⟨["drop column warning"], ["reserved error"]⟩,
   Except.ok ["step one"], [⟨"CreateModel A full"⟩],
   Except.ok ⟨"full-db-migration"⟩, Except.ok ["full step one"],
   "rendered datamodel"⟩

/-- Fixture: the output `executeInfer` produces on `exInputWatch` and
`exEnv` (the watch branch). -/
def exOut : MigrationStepsResultOutput :=
  ⟨"rendered datamodel", [⟨"CreateModel A"⟩], ["step one"], [],
   ["drop column warning"], []⟩

end MigrationCore

namespace Dml

/-- A hit in the panic-aware scan comes from a member of the list. -/
theorem anyVisit_some_true_mem {α : Type} {l : List α} {p : α → Option Bool}
    (h : anyVisit l p = some true) : ∃ x ∈ l, p x = some true := by
  induction l with
  | nil => simp [anyVisit] at h
  | cons x xs ih =>
    cases hpx : p x with
    | none => simp [anyVisit, hpx] at h
    | some b =>
      cases b with
      | true => exact ⟨x, List.mem_cons_self x xs, hpx⟩
      | false =>
        simp only [anyVisit, hpx] at h
        obtain ⟨y, hy, hpy⟩ := ih h
        exact ⟨y, List.mem_cons_of_mem x hy, hpy⟩

/-- When no visit panics, the panic-aware scan is the ordinary Boolean
`any`. -/
theorem anyVisit_eq_some_any {α : Type} {l : List α} {p : α → Option Bool}
    (h : ∀ x ∈ l, (p x).isSome = true) :
    anyVisit l p = some (l.any (fun x => (p x).getD false)) := by
  induction l with
  | nil => simp [anyVisit]
  | cons x xs ih =>
    have hx := h x (List.mem_cons_self x xs)
    cases hpx : p x with
    | none => rw [hpx] at hx; cases hx
    | some b =>
      cases b with
      | true => simp [anyVisit, hpx]
      | false =>
        have hrec := ih (fun y hy => h y (List.mem_cons_of_mem x hy))
        simp [anyVisit, hpx, hrec]

/-- The Boolean `any` over defaulted visits holds exactly when some visit
returns a hit. -/
theorem any_getD_eq_true_iff {α : Type} {l : List α} {p : α → Option Bool} :
    (l.any (fun x => (p x).getD false) = true) ↔ ∃ x ∈ l, p x = some true := by
  rw [List.any_eq_true]
  constructor
  · rintro ⟨x, hx, hgx⟩
    refine ⟨x, hx, ?_⟩
    cases hpx : p x with
    | none => rw [hpx] at hgx; exact absurd hgx (by simp)
    | some b => rw [hpx] at hgx; simp at hgx; rw [hgx]
  · rintro ⟨x, hx, hpx⟩
    exact ⟨x, hx, by simp [hpx]⟩

/-- When no visit panics, the scan hits exactly when some member's visit
hits. -/
theorem anyVisit_eq_some_true_iff {α : Type} {l : List α} {p : α → Option Bool}
    (h : ∀ x ∈ l, (p x).isSome = true) :
    anyVisit l p = some true ↔ ∃ x ∈ l, p x = some true := by
  rw [anyVisit_eq_some_any h]
  simp only [Option.some.injEq]
  exact any_getD_eq_true_iff

/-- A scan hit survives weakening the visit pointwise. -/
theorem anyVisit_mono {α : Type} {l : List α} {p q : α → Option Bool}
    (hpq : ∀ x, ∀ b, p x = some b → ∃ c, q x = some c ∧ (b = true → c = true))
    (h : anyVisit l p = some true) : anyVisit l q = some true := by
  induction l with
  | nil => simp [anyVisit] at h
  | cons x xs ih =>
    cases hpx : p x with
    | none => simp [anyVisit, hpx] at h
    | some b =>
      obtain ⟨c, hqx, hbc⟩ := hpq x b hpx
      cases b with
      | true =>
        have hc := hbc rfl
        subst hc
        simp [anyVisit, hqx]
      | false =>
        simp only [anyVisit, hpx] at h
        have hxs := ih h
        cases c with
        | true => simp [anyVisit, hqx]
        | false => simp only [anyVisit, hqx]; exact hxs

end Dml

namespace Dml

/-- An index with a non-empty field list is visited without panicking by
the unique-index scan. -/
theorem uniqueIndexVisit_isSome {name : String} {i : IndexDefinition}
    (h : i.fields ≠ []) : (uniqueIndexVisit name i).isSome = true := by
  cases hf : i.fields with
  | nil => exact absurd hf h
  | cons f rest => simp [uniqueIndexVisit, hf]

/-- An index with a non-empty field list is visited without panicking by
the shorthand unique-index scan. -/
theorem uniqueOnFieldVisit_isSome {name : String} {i : IndexDefinition}
    (h : i.fields ≠ []) : (uniqueOnFieldVisit name i).isSome = true := by
  cases hf : i.fields with
  | nil => exact absurd hf h
  | cons f rest => simp [uniqueOnFieldVisit, hf]

/-- An index with a non-empty field list is visited without panicking by
the leading-field scan. -/
theorem firstInIndexVisit_isSome {name : String} {i : IndexDefinition}
    (h : i.fields ≠ []) : (firstInIndexVisit name i).isSome = true := by
  cases hf : i.fields with
  | nil => exact absurd hf h
  | cons f rest => simp [firstInIndexVisit, hf]

/-- The unique-index visit hits exactly on a unique index whose single
field is the named field of the current model. -/
theorem uniqueIndexVisit_eq_some_true_iff {name : String} {i : IndexDefinition} :
    uniqueIndexVisit name i = some true ↔
      (i.tpe = IndexType.unique ∧ ∃ f, i.fields = [f] ∧
        f.location = IndexFieldLocation.inCurrentModel name) := by
  cases hf : i.fields with
  | nil => simp [uniqueIndexVisit, hf]
  | cons f rest =>
    cases rest with
    | cons g rest2 => simp [uniqueIndexVisit, hf]
    | nil =>
      cases htpe : i.tpe with
      | unique =>
        cases hloc : f.location with
        | inCurrentModel fn =>
          simp [uniqueIndexVisit, hf, IndexDefinition.is_unique, htpe, hloc]
        | inCompositeType a b c =>
          simp [uniqueIndexVisit, hf, IndexDefinition.is_unique, htpe, hloc]
      | normal => simp [uniqueIndexVisit, hf, IndexDefinition.is_unique, htpe]
      | fulltext => simp [uniqueIndexVisit, hf, IndexDefinition.is_unique, htpe]

/-- The shorthand unique-index visit hits exactly on a unique,
field-level-declared index whose single field is the named field of the
current model. -/
theorem uniqueOnFieldVisit_eq_some_true_iff {name : String} {i : IndexDefinition} :
    uniqueOnFieldVisit name i = some true ↔
      (i.tpe = IndexType.unique ∧ i.defined_on_field = true ∧ ∃ f, i.fields = [f] ∧
        f.location = IndexFieldLocation.inCurrentModel name) := by
  cases hf : i.fields with
  | nil => simp [uniqueOnFieldVisit, hf]
  | cons f rest =>
    cases rest with
    | cons g rest2 => simp [uniqueOnFieldVisit, hf]
    | nil =>
      cases htpe : i.tpe with
      | unique =>
        cases hloc : f.location with
        | inCurrentModel fn =>
          simp [uniqueOnFieldVisit, hf, IndexDefinition.is_unique, htpe, hloc]
          tauto
        | inCompositeType a b c =>
          simp [uniqueOnFieldVisit, hf, IndexDefinition.is_unique, htpe, hloc]
      | normal => simp [uniqueOnFieldVisit, hf, IndexDefinition.is_unique, htpe]
      | fulltext => simp [uniqueOnFieldVisit, hf, IndexDefinition.is_unique, htpe]

/-- The leading-field visit hits exactly when the index's first field is
the named field of the current model. -/
theorem firstInIndexVisit_eq_some_true_iff {name : String} {i : IndexDefinition} :
    firstInIndexVisit name i = some true ↔
      (∃ f rest, i.fields = f :: rest ∧
        f.location = IndexFieldLocation.inCurrentModel name) := by
  cases hf : i.fields with
  | nil => simp [firstInIndexVisit, hf]
  | cons f rest =>
    cases hloc : f.location with
    | inCurrentModel fn => simp [firstInIndexVisit, hf, hloc]
    | inCompositeType a b c => simp [firstInIndexVisit, hf, hloc]

/-- The primary-key leading-field visit hits exactly when the primary
key's first field bears the given name. -/
theorem pkFirstVisit_eq_some_true_iff {m : Model} {name : String} :
    pkFirstVisit m name = some true ↔ IsFirstPrimaryKeyField m name := by
  unfold pkFirstVisit IsFirstPrimaryKeyField
  cases hpk : m.primary_key with
  | none => simp
  | some pk =>
    cases hpf : pk.fields with
    | nil => simp [hpf]
    | cons f rest => simp [hpf]

/-- A primary key with a non-empty field list is visited without panicking
by the primary-key leading-field scan. -/
theorem pkFirstVisit_isSome {m : Model} {name : String}
    (h : HasNonEmptyPrimaryKeyFields m) : (pkFirstVisit m name).isSome = true := by
  unfold pkFirstVisit
  cases hpk : m.primary_key with
  | none => simp
  | some pk =>
    cases hpf : pk.fields with
    | nil => exact absurd hpf (h pk hpk)
    | cons f rest => simp [hpf]

/-- `field_is_primary` holds exactly on the single-field primary key with
the given name. -/
theorem field_is_primary_iff {m : Model} {name : String} :
    m.field_is_primary name = true ↔ IsSingleFieldPrimaryKey m name := by
  unfold Model.field_is_primary IsSingleFieldPrimaryKey
  cases hpk : m.primary_key with
  | none => simp
  | some pk =>
    cases hpf : pk.fields with
    | nil => simp [hpf]
    | cons f rest =>
      cases rest with
      | nil => simp [hpf]
      | cons g rest2 => simp [hpf]

end Dml

namespace Dml

/-- A by-name `find?` over named items: it returns a match exactly when
one exists, and `none` (the panic of the `_mut` lookups) exactly when none
does. -/
theorem find_by_name_spec {α : Type} (nm : α → String) (l : List α) (name : String) :
    ((∃ x ∈ l, nm x = name) →
        ∃ x, l.find? (fun y => nm y == name) = some x ∧ nm x = name) ∧
    ((∀ x ∈ l, nm x ≠ name) → l.find? (fun y => nm y == name) = none) := by
  constructor
  · rintro ⟨x, hx, hnx⟩
    have hs : (l.find? (fun y => nm y == name)).isSome = true :=
      List.find?_isSome.mpr ⟨x, hx, by simp [hnx]⟩
    obtain ⟨z, hz⟩ := Option.isSome_iff_exists.mp hs
    exact ⟨z, hz, by simpa using List.find?_some hz⟩
  · intro h
    exact List.find?_eq_none.mpr (fun x hx => by simp [h x hx])

/-- Claim C2: `is_strict_criteria` is true exactly when no resolved field
of the candidate is optional and none has an unsupported type; in
particular it is false as soon as one resolved field is optional or
unsupported. -/
theorem claim_C2_is_strict_criteria (w : UniqueCriteriaWalker) :
    w.is_strict_criteria = true ↔
      ∀ f ∈ w.fields, f.is_optional = false ∧ f.is_unsupported = false := by
  simp only [UniqueCriteriaWalker.is_strict_criteria,
    UniqueCriteriaWalker.has_optional_fields,
    UniqueCriteriaWalker.has_unsupported_fields, Bool.and_eq_true,
    Bool.not_eq_true', List.any_eq_false, Bool.not_eq_true]
  constructor
  · rintro ⟨h1, h2⟩ f hf
    exact ⟨h1 f hf, h2 f hf⟩
  · intro h
    exact ⟨fun f hf => (h f hf).1, fun f hf => (h f hf).2⟩

/-- Claim C7: `has_created_at_and_updated_at` holds exactly when, for each
of the names createdAt and updatedAt, a scalar field with the exact name —
or, failing that, with the fully lowercased name — exists and the field so
found has a date/time type. -/
theorem claim_C7_has_created_at_and_updated_at (m : Model) :
    m.has_created_at_and_updated_at = true ↔
      (SpecDateTimeFieldFound m "createdAt" ∧ SpecDateTimeFieldFound m "updatedAt") := by
  have key : ∀ name, hasDateTimeFieldNamed m name = true ↔ SpecDateTimeFieldFound m name := by
    intro name
    unfold hasDateTimeFieldNamed SpecDateTimeFieldFound
    cases h1 : m.find_scalar_field name with
    | some f => simp [h1]
    | none =>
      cases h2 : m.find_scalar_field (rustToLowercase name) with
      | some f => simp [h1, h2]
      | none => simp [h1, h2]
  unfold Model.has_created_at_and_updated_at
  rw [Bool.and_eq_true, key, key]

/-- Claim C8: each mutating lookup returns the matching field of its kind
when one exists, and panics (embedded as `none`) when none does. -/
theorem claim_C8_mut_lookups (m : Model) (name : String) :
    ((∃ f ∈ m.fields, Field.name f = name) →
        ∃ f, m.find_field_mut name = some f ∧ Field.name f = name) ∧
    ((∀ f ∈ m.fields, Field.name f ≠ name) → m.find_field_mut name = none) ∧
    ((∃ sf ∈ m.scalar_fields, sf.name = name) →
        ∃ sf, m.find_scalar_field_mut name = some sf ∧ sf.name = name) ∧
    ((∀ sf ∈ m.scalar_fields, sf.name ≠ name) → m.find_scalar_field_mut name = none) ∧
    ((∃ rf ∈ m.relation_fields, rf.name = name) →
        ∃ rf, m.find_relation_field_mut name = some rf ∧ rf.name = name) ∧
    ((∀ rf ∈ m.relation_fields, rf.name ≠ name) → m.find_relation_field_mut name = none) := by
  refine ⟨?_, ?_, ?_, ?_, ?_, ?_⟩
  · exact (find_by_name_spec Field.name m.fields name).1
  · exact (find_by_name_spec Field.name m.fields name).2
  · exact (find_by_name_spec ScalarField.name m.scalar_fields name).1
  · exact (find_by_name_spec ScalarField.name m.scalar_fields name).2
  · exact (find_by_name_spec RelationField.name m.relation_fields name).1
  · exact (find_by_name_spec RelationField.name m.relation_fields name).2

/-- Claim C8, exercised: on a model with scalar `s`, relation `r` and
composite `c`, the field lookup on `s` succeeds and the scalar lookup on a
missing name panics. -/
theorem claim_C8_witness :
    (∃ f, exModelRich.find_field_mut "s" = some f ∧ Field.name f = "s") ∧
    exModelRich.find_scalar_field_mut "zzz" = none :=
  ⟨(claim_C8_mut_lookups exModelRich "s").1 (by decide),
   (claim_C8_mut_lookups exModelRich "zzz").2.2.2.1 (by decide)⟩

/-- Claim C9: `field_is_indexed` panics (embedded as `none`) when no field
with the given name exists, and `field_is_auto_generated_int_id` panics
when no scalar field with the given name exists. -/
theorem claim_C9_partial_predicates (m : Model) (name : String) :
    ((∀ f ∈ m.fields, Field.name f ≠ name) → m.field_is_indexed name = none) ∧
    ((∀ sf ∈ m.scalar_fields, sf.name ≠ name) →
        m.field_is_auto_generated_int_id name = none) := by
  constructor
  · intro h
    have hff : m.find_field name = none :=
      (find_by_name_spec Field.name m.fields name).2 h
    unfold Model.field_is_indexed
    rw [hff]
    rfl
  · intro h
    have hff : m.find_scalar_field name = none :=
      (find_by_name_spec ScalarField.name m.scalar_fields name).2 h
    unfold Model.field_is_auto_generated_int_id
    rw [hff]
    rfl

/-- Claim C9, exercised: on the model with scalar `s`, relation `r` and
composite `c`, `field_is_indexed` panics on the missing name `zzz` and
`field_is_auto_generated_int_id` panics on `r`, a name carried only by a
relation field. -/
theorem claim_C9_witness :
    exModelRich.field_is_indexed "zzz" = none ∧
    exModelRich.field_is_auto_generated_int_id "r" = none :=
  ⟨(claim_C9_partial_predicates exModelRich "zzz").1 (by decide),
   (claim_C9_partial_predicates exModelRich "r").2 (by decide)⟩

end Dml

namespace MigrationCore

/-- Claim C6: `is_watch_migration` is a pure function of the migration
identifier alone, true exactly when the identifier begins with the prefix
watch. -/
theorem claim_C6_is_watch_migration :
    (∀ i : InferMigrationStepsInput,
      i.is_watch_migration = true ↔ ∃ rest, i.migration_id = "watch" ++ rest) ∧
    (∀ i j : InferMigrationStepsInput,
      i.migration_id = j.migration_id → i.is_watch_migration = j.is_watch_migration) := by
  constructor
  · intro i
    unfold InferMigrationStepsInput.is_watch_migration Dml.rustStartsWith
    rw [ List.isPrefixOf_iff_prefix]
    constructor
    · rintro ⟨t, ht⟩
      refine ⟨String.mk t, String.ext ?_⟩
      rw [String.data_append]
      exact ht.symm
    · rintro ⟨rest, hrest⟩
      exact ⟨rest.data, by rw [hrest, String.data_append]⟩
  · intro i j h
    unfold InferMigrationStepsInput.is_watch_migration
    rw [h]

/-- Claim C6, exercised: an identifier with the watch prefix is a watch
migration, and the result does not change when the other input parts
change. -/
theorem claim_C6_witness :
    (⟨"watchX", "", []⟩ : InferMigrationStepsInput).is_watch_migration = true ∧
    (⟨"watchX", "model A", [⟨"s"⟩]⟩ : InferMigrationStepsInput).is_watch_migration =
      (⟨"watchX", "model B", []⟩ : InferMigrationStepsInput).is_watch_migration :=
  ⟨(claim_C6_is_watch_migration.1 _).mpr ⟨"X", by decide⟩,
   claim_C6_is_watch_migration.2 _ _ rfl⟩

end MigrationCore

namespace Dml

/-- Claim C3: `field_is_unique` returns true only on a unique index with
exactly one field, that field lying in the current model under the given
name; the `_defined_on_field` variant additionally only when the index
came from a field-level shorthand. -/
theorem claim_C3_field_is_unique (m : Model) (name : String)
    (_hinv : HasNonEmptyIndexFields m) :
    (m.field_is_unique name = some true → IsSingleFieldUniqueTarget m name) ∧
    (m.field_is_unique_and_defined_on_field name = some true →
      IsSingleFieldUniqueTargetOnField m name) := by
  constructor
  · intro h
    unfold Model.field_is_unique at h
    obtain ⟨i, hi, hv⟩ := anyVisit_some_true_mem h
    obtain ⟨h1, f, h2, h3⟩ := uniqueIndexVisit_eq_some_true_iff.mp hv
    exact ⟨i, hi, h1, f, h2, h3⟩
  · intro h
    unfold Model.field_is_unique_and_defined_on_field at h
    obtain ⟨i, hi, hv⟩ := anyVisit_some_true_mem h
    obtain ⟨h1, h4, f, h2, h3⟩ := uniqueOnFieldVisit_eq_some_true_iff.mp hv
    exact ⟨i, hi, h1, h4, f, h2, h3⟩

/-- Claim C3, exercised: on the model with the field-level unique index on
`a`, both predicates certify the unique single-field index. -/
theorem claim_C3_witness :
    IsSingleFieldUniqueTarget exModelUnique "a" ∧
    IsSingleFieldUniqueTargetOnField exModelUnique "a" :=
  ⟨(claim_C3_field_is_unique exModelUnique "a"
      (by intro i hi; fin_cases hi <;> simp [exUniqueIndexA])).1 (by decide),
   (claim_C3_field_is_unique exModelUnique "a"
      (by intro i hi; fin_cases hi <;> simp [exUniqueIndexA])).2 (by decide)⟩

/-- Claim C10: the shorthand-origin predicates imply their base
predicates. -/
theorem claim_C10_shorthand_implies_base (m : Model) (name : String)
    (_hinv : HasNonEmptyIndexFields m) :
    (m.field_is_unique_and_defined_on_field name = some true →
      m.field_is_unique name = some true) ∧
    (m.field_is_primary_and_defined_on_field name = true →
      m.field_is_primary name = true) := by
  constructor
  · intro h
    unfold Model.field_is_unique_and_defined_on_field at h
    unfold Model.field_is_unique
    refine anyVisit_mono ?_ h
    intro i b hb
    cases hf : i.fields with
    | nil => simp [uniqueOnFieldVisit, hf] at hb
    | cons f rest =>
      simp only [uniqueOnFieldVisit, hf, List.head?_cons, Option.some.injEq] at hb
      refine ⟨i.is_unique && i.fields.length == 1 &&
        (match f.location with
         | IndexFieldLocation.inCurrentModel field_name => field_name == name
         | IndexFieldLocation.inCompositeType _ _ _ => false), ?_, ?_⟩
      · simp only [uniqueIndexVisit, hf, List.head?_cons]
      · intro hbt
        rw [hbt] at hb
        rw [hf]
        simp only [Bool.and_eq_true] at hb ⊢
        tauto
  · intro h
    unfold Model.field_is_primary_and_defined_on_field at h
    unfold Model.field_is_primary
    cases hpk : m.primary_key with
    | none => rw [hpk] at h; simp at h
    | some pk =>
      rw [hpk] at h
      simp at h ⊢
      tauto

/-- Claim C10, exercised: on the shorthand unique index the base unique
predicate follows, and on the shorthand primary key the base primary
predicate follows. -/
theorem claim_C10_witness :
    exModelUnique.field_is_unique "a" = some true ∧
    exModelId.field_is_primary "id" = true :=
  ⟨(claim_C10_shorthand_implies_base exModelUnique "a"
      (by intro i hi; fin_cases hi <;> simp [exUniqueIndexA])).1 (by decide),
   (claim_C10_shorthand_implies_base exModelId "id"
      (by intro i hi; fin_cases hi)).2 (by decide)⟩

/-- Claim C4: for a model containing a scalar field of the given name,
`field_is_auto_generated_int_id` is true exactly when the field is the
sole primary-key field, its default is a generator expression, and its
scalar type is integer. -/
theorem claim_C4_field_is_auto_generated_int_id (m : Model) (name : String)
    (f : ScalarField) (hf : m.find_scalar_field name = some f) :
    m.field_is_auto_generated_int_id name = some true ↔
      (IsSingleFieldPrimaryKey m name ∧
       (∃ dv, f.default_value = some dv ∧ dv.kind = DefaultKind.expression) ∧
       f.field_type = FieldType.scalar ScalarType.int) := by
  unfold Model.field_is_auto_generated_int_id
  rw [hf]
  cases hdv : f.default_value with
  | none => simp [hdv]
  | some dv =>
    obtain ⟨k⟩ := dv
    cases k with
    | single => simp [hdv]
    | expression =>
      cases hft : f.field_type with
      | scalar t => cases t <;> simp [hdv, hft, field_is_primary_iff]
      | other tag => simp [hdv, hft]

/-- Claim C4, exercised: the fixture's `id` field is recognized as an
auto-generated integer id. -/
theorem claim_C4_witness :
    exModelId.field_is_auto_generated_int_id "id" = some true :=
  (claim_C4_field_is_auto_generated_int_id exModelId "id"
      ⟨"id", FieldType.scalar ScalarType.int, none, some ⟨DefaultKind.expression⟩⟩
      (by decide)).mpr
    ⟨⟨⟨none, none, [⟨"id", none, none⟩], true⟩, ⟨"id", none, none⟩, rfl, rfl, rfl⟩,
     ⟨⟨DefaultKind.expression⟩, rfl, rfl⟩, rfl⟩

end Dml

namespace Dml

/-- Claim C1: under the non-empty-field-list invariants and with the named
field present in the model, `field_is_indexed` holds exactly when the
field is the single-field primary key, the target of a single-field unique
index, the first field of some index whose first field lies in the current
model, or the first field of the primary key. -/
theorem claim_C1_field_is_indexed (m : Model) (name : String)
    (hidx : HasNonEmptyIndexFields m) (hpk : HasNonEmptyPrimaryKeyFields m)
    (hname : m.has_field name = true) :
    m.field_is_indexed name = some true ↔
      (IsSingleFieldPrimaryKey m name ∨ IsSingleFieldUniqueTarget m name ∨
       IsFirstFieldOfSomeModelIndex m name ∨ IsFirstPrimaryKeyField m name) := by
  obtain ⟨field, hfield⟩ : ∃ f, m.find_field name = some f := by
    unfold Model.has_field at hname
    exact Option.isSome_iff_exists.mp hname
  have hfname : Field.name field = name := by
    have hfind := hfield
    unfold Model.find_field at hfind
    simpa using List.find?_some hfind
  have htotU : ∀ i ∈ m.indices, (uniqueIndexVisit name i).isSome = true :=
    fun i hi => uniqueIndexVisit_isSome (hidx i hi)
  have htotF : ∀ i ∈ m.indices, (firstInIndexVisit name i).isSome = true :=
    fun i hi => firstInIndexVisit_isSome (hidx i hi)
  obtain ⟨pb, hpb⟩ :=
    Option.isSome_iff_exists.mp (@pkFirstVisit_isSome m name hpk)
  have hUany := anyVisit_eq_some_any htotU
  have hFany := anyVisit_eq_some_any htotF
  set ub := m.indices.any (fun i => (uniqueIndexVisit name i).getD false) with hub
  set fb := m.indices.any (fun i => (firstInIndexVisit name i).getD false) with hfb
  have hP2 : ub = true ↔ IsSingleFieldUniqueTarget m name := by
    rw [hub, any_getD_eq_true_iff]
    constructor
    · rintro ⟨i, hi, hv⟩
      obtain ⟨t1, f, t2, t3⟩ := uniqueIndexVisit_eq_some_true_iff.mp hv
      exact ⟨i, hi, t1, f, t2, t3⟩
    · rintro ⟨i, hi, t1, f, t2, t3⟩
      exact ⟨i, hi, uniqueIndexVisit_eq_some_true_iff.mpr ⟨t1, f, t2, t3⟩⟩
  have hP3 : fb = true ↔ IsFirstFieldOfSomeModelIndex m name := by
    rw [hfb, any_getD_eq_true_iff]
    constructor
    · rintro ⟨i, hi, hv⟩
      obtain ⟨f, rest, t2, t3⟩ := firstInIndexVisit_eq_some_true_iff.mp hv
      exact ⟨i, hi, f, rest, t2, t3⟩
    · rintro ⟨i, hi, f, rest, t2, t3⟩
      exact ⟨i, hi, firstInIndexVisit_eq_some_true_iff.mpr ⟨f, rest, t2, t3⟩⟩
  have hP4 : pb = true ↔ IsFirstPrimaryKeyField m name := by
    rw [← @pkFirstVisit_eq_some_true_iff m name]
    constructor
    · intro hbt
      rw [hpb, hbt]
    · intro hsome
      exact Option.some_inj.mp (hpb.symm.trans hsome)
  have hU' : m.field_is_unique name = some ub := hUany
  have hcalc : m.field_is_indexed name =
      some (m.field_is_primary name || (ub || (fb || pb))) := by
    cases hprim : m.field_is_primary name with
    | true => simp [Model.field_is_indexed, hfield, hfname, hprim]
    | false =>
      cases hu : ub with
      | true => simp [Model.field_is_indexed, hfield, hfname, hprim, hU', hu]
      | false =>
        simp [Model.field_is_indexed, hfield, hfname, hprim, hU', hu, hFany, hpb]
  rw [hcalc, Option.some_inj]
  simp only [Bool.or_eq_true]
  exact or_congr field_is_primary_iff (or_congr hP2 (or_congr hP3 hP4))

/-- Claim C1, exercised: in the model with `@@index([a, b])`, the leading
field `a` is indexed. -/
theorem claim_C1_witness :
    exModelAB.field_is_indexed "a" = some true :=
  (claim_C1_field_is_indexed exModelAB "a"
      (by intro i hi; fin_cases hi <;> simp [exIndexAB])
      (by intro pk h; simp [exModelAB] at h)
      (by decide)).mpr
    (Or.inr (Or.inr (Or.inl ⟨exIndexAB, by simp [exModelAB],
      ⟨IndexFieldLocation.inCurrentModel "a", none, none⟩,
      [⟨IndexFieldLocation.inCurrentModel "b", none, none⟩], rfl, rfl⟩)))

end Dml

namespace MigrationCore

/-- Claim C5: whenever the InferMigrationSteps command succeeds, its
output's errors list is empty and its warnings are exactly the warnings of
the destructive-change report, whatever that report's own errors were. -/
theorem claim_C5_execute_destructive (input : InferMigrationStepsInput)
    (env : InferEnv) (out : MigrationStepsResultOutput)
    (h : executeInfer input env = Except.ok out) :
    out.errors = [] ∧
      ∃ diag, env.destructive_check = Except.ok diag ∧
        out.warnings = diag.warnings := by
  obtain ⟨a1, a2, a3, a4, ms, dm, dc, ws, ls, fdm, fds, rd⟩ := env
  cases a1 with
  | error e1 => exact Except.noConfusion h
  | ok v1 =>
  cases a2 with
  | error e2 => exact Except.noConfusion h
  | ok v2 =>
  cases a3 with
  | error e3 => exact Except.noConfusion h
  | ok v3 =>
  cases a4 with
  | error e4 => exact Except.noConfusion h
  | ok v4 =>
  cases dm with
  | error e5 => exact Except.noConfusion h
  | ok v5 =>
  cases dc with
  | error e6 => exact Except.noConfusion h
  | ok diag =>
  unfold executeInfer at h
  cases hw : input.is_watch_migration with
  | true =>
    rw [hw] at h
    cases ws with
    | error e7 => exact Except.noConfusion h
    | ok wsteps =>
      injection h with hout
      subst hout
      exact ⟨rfl, diag, rfl, rfl⟩
  | false =>
    rw [hw] at h
    cases fdm with
    | error e8 => exact Except.noConfusion h
    | ok v8 =>
    cases fds with
    | error e9 => exact Except.noConfusion h
    | ok fsteps =>
      injection h with hout
      subst hout
      exact ⟨rfl, diag, rfl, rfl⟩

/-- Claim C5, exercised: on the all-successful collaborator environment
whose destructive-change report carries one warning and one (discarded)
error, the command succeeds with empty errors and that warning. -/
theorem claim_C5_witness :
    exOut.errors = [] ∧
      ∃ diag, exEnv.destructive_check = Except.ok diag ∧
        exOut.warnings = diag.warnings :=
  claim_C5_execute_destructive exInputWatch exEnv exOut (by rfl)

end MigrationCore
